import Mathlib

/-!
Shallow embedding of the metric-collection core of the Google Analytics
exporter (src/ganalytics.go): the label sanitizer `buildMetricLabel`, the
gauge/gauge-vector registry, the dimension resolver `getDimensions`, and
the fetch-and-update worker `collectMetric`.  Go strings are modelled as
`String` (runes as `Char`), float64 values as `ℚ` (all values exercised
here are exactly representable), Go maps as association lists with
first-match lookup and cons-overwrite, and the two Go panic sources
(failed fetch, out-of-range slice index, nil map entry dereference,
non-already-registered registration failure) as an `Except` error.
-/

set_option autoImplicit false

namespace Ganalytics

/-- A character accepted by the regular expression class [a-zA-Z0-9] used in
buildMetricLabel (src/ganalytics.go:144): an ASCII letter or digit. -/
def isGoAlnum (c : Char) : Bool :=
  (('a' ≤ c) && (c ≤ 'z')) || (('A' ≤ c) && (c ≤ 'Z')) || (('0' ≤ c) && (c ≤ '9'))

/-- Embeds Go strings.Replace(s, old, new, 1) for a single-character pattern,
as called with ":" and "_" in init and registerMetricVec
(src/ganalytics.go:48,60): replace the first occurrence only. -/
def goReplaceFirstChar : List Char → Char → Char → List Char
  | [], _, _ => []
  | c :: cs, old, new => if c = old then new :: cs else c :: goReplaceFirstChar cs old new

/-- Whether `sub` occurs as a contiguous run inside `s`: it is a prefix of
some suffix. -/
def goContainsAux : List Char → List Char → Bool
  | [], sub => sub.isEmpty
  | c :: t, sub => sub.isPrefixOf (c :: t) || goContainsAux t sub

/-- Embeds Go strings.Contains(s, sub) (src/ganalytics.go:134); the source
only calls it with the non-empty literal "(not set)". -/
def goContains (s sub : String) : Bool :=
  goContainsAux s.toList sub.toList

/-- Embeds buildMetricLabel (src/ganalytics.go:143-148).  The regex
ReplaceAllString deleting every [^a-zA-Z0-9]+ run is character filtering by
`isGoAlnum`; strings.Join([]string{"rt:", stripped}, "_") is the
concatenation of "rt:", "_" and the stripped string; the final
strings.Replace(s, " ", "_", -1) maps every space to an underscore. -/
def buildMetricLabel (action : String) : String :=
  let stripped : List Char := action.toList.filter isGoAlnum
  let joined : List Char := "rt:".toList ++ '_' :: stripped
  (joined.map fun c => if c = ' ' then '_' else c).asString

/-- The series name built by fmt.Sprintf("ga_%s", strings.Replace(metric, ":",
"_", 1)) in both init (src/ganalytics.go:48) and registerMetricVec
(src/ganalytics.go:60). -/
def gaName (metric : String) : String :=
  "ga_" ++ (goReplaceFirstChar metric.toList ':' '_').asString

/-- The prometheus.GaugeOpts fields the source sets: Name, Help and
ConstLabels (src/ganalytics.go:47-51,59-62). -/
structure GaugeOpts where
  name : String
  help : String
  constLabels : List (String × String)
  deriving DecidableEq

/-- The GaugeOpts built for a scalar gauge in init (src/ganalytics.go:47-51). -/
def scalarGaugeOpts (metric : String) : GaugeOpts :=
  { name := gaName metric
    help := "Google Analytics " ++ metric
    constLabels := [("job", "googleAnalytics")] }

/-- The GaugeOpts built for a gauge vector in registerMetricVec
(src/ganalytics.go:59-62). -/
def vectorGaugeOpts (metric : String) : GaugeOpts :=
  { name := gaName metric
    help := "Google Analytics " ++ metric
    constLabels := [("job", "googleAnalytics")] }

/-- The variable label dimensions of every gauge vector:
[]string{"category"} (src/ganalytics.go:63). -/
def vectorGaugeLabelNames : List String := ["category"]

/-- Modelled from the spec: the float parser applied to result cells (Go
strconv.ParseFloat, a library collaborator whose code is not in this
repository), restricted to the plain sign-and-decimal forms the spec
exercises; anything else (including the empty string) is a parse failure
`none`.  The spec only requires that well-formed decimals parse to their
value and that non-numeric cells fail. -/
def parseFloat (s : String) : Option ℚ :=
  let signAndDigits : ℚ × List Char :=
    match s.toList with
    | '+' :: r => (1, r)
    | '-' :: r => (-1, r)
    | r => (1, r)
  let digitsVal : List Char → ℚ := fun cs =>
    ((cs.foldl (fun a c => 10 * a + (c.toNat - 48)) 0 : ℕ) : ℚ)
  let allDigits : List Char → Bool := fun cs =>
    cs.all fun c => ('0' ≤ c) && (c ≤ '9')
  match signAndDigits.2.splitOn '.' with
  | [intp] =>
      if intp ≠ [] && allDigits intp then some (signAndDigits.1 * digitsVal intp)
      else none
  | [intp, fracp] =>
      if (intp ++ fracp) ≠ [] && allDigits (intp ++ fracp) then
        some (signAndDigits.1 * (digitsVal intp + digitsVal fracp / (10 : ℚ) ^ fracp.length))
      else none
  | _ => none

/-- A Go panic of the worker: a failed fetch (src/ganalytics.go:123), a slice
index out of range (src/ganalytics.go:127,133,135,137), a nil map entry
dereference, or a registration failure other than AlreadyRegisteredError
(src/ganalytics.go:70). -/
inductive GoPanic where
  | fetchError
  | indexOutOfRange
  | nilPointer
  | registrationFailed
  deriving DecidableEq

/-- The shared mutable state of the exporter: the scalar gauge values keyed
by metric name (promGauge), the gauge-vector handles keyed by derived label
(promGaugeVec), the prometheus registry of vector collectors keyed by series
name, the per-(handle, category) vector cells, and a fresh-handle counter.
Gauges are modelled by their current value; maps are association lists where
an update conses a new first-match binding. -/
structure GaState where
  promGauge : List (String × ℚ)
  promGaugeVec : List (String × Nat)
  registry : List (String × Nat)
  vecValues : List ((Nat × String) × ℚ)
  nextId : Nat
  deriving DecidableEq

/-- Outcome of prometheus.Register for a collector: success, an
AlreadyRegisteredError carrying the existing collector, or any other
registration error. -/
inductive RegOutcome where
  | ok
  | already (existing : Nat)
  | failed
  deriving DecidableEq

/-- Modelled prometheus registry Register: registering a collector whose
series name is already present yields AlreadyRegisteredError with the
existing collector, otherwise the collector is added.  (The `failed` outcome
of `RegOutcome` is never produced by this model; it stands for the other
registration errors of the real library.) -/
def promRegister (registry : List (String × Nat)) (name : String) (id : Nat) :
    RegOutcome × List (String × Nat) :=
  match List.lookup name registry with
  | some e => (RegOutcome.already e, registry)
  | none => (RegOutcome.ok, (name, id) :: registry)

/-- Embeds registerMetricVec (src/ganalytics.go:58-72): build a fresh gauge
vector, store it under `metric` in promGaugeVec, register it; on
AlreadyRegisteredError replace the stored handle by the existing collector;
any other registration error panics. -/
def registerMetricVec (metric : String) (st : GaState) : Except GoPanic GaState :=
  let id := st.nextId
  let st1 : GaState :=
    { st with promGaugeVec := (metric, id) :: st.promGaugeVec, nextId := id + 1 }
  match promRegister st1.registry (vectorGaugeOpts metric).name id with
  | (RegOutcome.ok, reg) => Except.ok { st1 with registry := reg }
  | (RegOutcome.already e, reg) =>
      Except.ok { st1 with registry := reg,
                           promGaugeVec := (metric, e) :: st1.promGaugeVec }
  | (RegOutcome.failed, _) => Except.error GoPanic.registrationFailed

/-- Embeds promGaugeVec[label].WithLabelValues(category).Set(valf)
(src/ganalytics.go:138): look the handle up in promGaugeVec (a missing entry
is a nil dereference) and overwrite the (handle, category) cell. -/
def withLabelValuesSet (st : GaState) (label category : String) (v : ℚ) :
    Except GoPanic GaState :=
  match List.lookup label st.promGaugeVec with
  | none => Except.error GoPanic.nilPointer
  | some vecId =>
      Except.ok { st with vecValues := ((vecId, category), v) :: st.vecValues }

/-- Embeds the body of the row loop of collectMetric
(src/ganalytics.go:132-140): read row[0] as the category; skip the row when
it contains "(not set)"; otherwise sanitize row[1], register the vector,
parse row[2] (failure reads as zero since the error is discarded) and set
the (label, category) cell.  Out-of-range indexing panics. -/
def processRow (st : GaState) (row : List String) : Except GoPanic GaState :=
  match row.get? 0 with
  | none => Except.error GoPanic.indexOutOfRange
  | some category =>
    if goContains category "(not set)" then Except.ok st
    else
      match row.get? 1 with
      | none => Except.error GoPanic.indexOutOfRange
      | some dimVal =>
        match registerMetricVec (buildMetricLabel dimVal) st with
        | Except.error p => Except.error p
        | Except.ok st1 =>
          match row.get? 2 with
          | none => Except.error GoPanic.indexOutOfRange
          | some cell =>
              withLabelValuesSet st1 (buildMetricLabel dimVal) category
                ((parseFloat cell).getD 0)

/-- Embeds collectMetric (src/ganalytics.go:117-141) from the point where the
fetch result is in hand: the request and its optional dimension argument are
external I/O, so the fetch outcome (m.Rows on success, the error otherwise)
is an input.  A failed fetch panics; a result of exactly one row parses
Rows[0][0] and sets the scalar gauge of the metric (a metric missing from
promGauge is a nil dereference at Set); any other result runs the row loop
`processRow` over the rows in order. -/
def collectMetric (metric : String) (fetched : Except String (List (List String)))
    (st : GaState) : Except GoPanic GaState :=
  match fetched with
  | Except.error _ => Except.error GoPanic.fetchError
  | Except.ok rows =>
    if rows.length == 1 then
      match (rows.get? 0).bind (fun r => r.get? 0) with
      | none => Except.error GoPanic.indexOutOfRange
      | some cell =>
        match List.lookup metric st.promGauge with
        | none => Except.error GoPanic.nilPointer
        | some _ =>
            Except.ok
              { st with promGauge := (metric, (parseFloat cell).getD 0) :: st.promGauge }
    else
      List.foldlM processRow st rows

/-- Embeds getDimensions (src/ganalytics.go:151-158): iterate over every
configured dimension map, each time overwriting the accumulator with
strings.Join(dimensionMap[metric], ",") where a missing key reads as the
empty (nil) slice.  Each Go map is an association list. -/
def getDimensions (cfgDimensions : List (List (String × List String)))
    (metric : String) : String :=
  cfgDimensions.foldl
    (fun _dimensions dimensionMap =>
      String.intercalate "," ((List.lookup metric dimensionMap).getD []))
    ""

/-- Number of registry entries carrying a given series name. -/
def countKey (l : List (String × Nat)) (k : String) : Nat :=
  (l.filter fun p => k == p.1).length

/-- Per-row precondition of the row loop: the row is non-empty, and when its
first cell does not contain "(not set)" it has at least three cells. -/
def rowOK (r : List String) : Bool :=
  match r with
  | [] => false
  | c :: rest => goContains c "(not set)" || decide (2 ≤ rest.length)

/-- Precondition under which the worker's result interpretation never indexes
out of range: a single-row result needs a non-empty row; otherwise every row
must satisfy `rowOK`. -/
def rowsWF (rows : List (List String)) : Bool :=
  if rows.length == 1 then rows.all fun r => !r.isEmpty
  else rows.all rowOK

/-- A concrete starting state with one registered scalar gauge and an empty
vector side, used to exercise the theorems. -/
def exampleSt : GaState :=
  { promGauge := [("rt:activeUsers", 0)]
    promGaugeVec := []
    registry := []
    vecValues := []
    nextId := 0 }

/-! ### Helper lemmas about the sanitizer -/

theorem isGoAlnum_ne_space {c : Char} (h : isGoAlnum c = true) : c ≠ ' ' := by
  intro he
  subst he
  exact absurd h (by decide)

theorem map_spaceFix_filter (l : List Char) :
    (l.filter isGoAlnum).map (fun c => if c = ' ' then '_' else c) = l.filter isGoAlnum := by
  induction l with
  | nil => rfl
  | cons c t ih =>
    cases hc : isGoAlnum c with
    | false => simpa [List.filter_cons, hc] using ih
    | true =>
      have hne : c ≠ ' ' := isGoAlnum_ne_space hc
      simp [List.filter_cons, hc, if_neg hne, ih]

theorem buildMetricLabel_toList (action : String) :
    (buildMetricLabel action).toList
      = 'r' :: 't' :: ':' :: '_' :: action.toList.filter isGoAlnum := by
  show ((("rt:".toList ++ '_' :: action.toList.filter isGoAlnum).map
      fun c => if c = ' ' then '_' else c).asString).toList = _
  rw [List.toList_asString]
  rw [show "rt:".toList = ['r', 't', ':'] from rfl]
  simp only [List.map_append, List.map_cons, List.map_nil, map_spaceFix_filter]
  rfl

theorem goReplaceFirstChar_rt (l : List Char) :
    goReplaceFirstChar ('r' :: 't' :: ':' :: l) ':' '_' = 'r' :: 't' :: '_' :: l := by
  show (if 'r' = ':' then '_' :: 't' :: ':' :: l
        else 'r' :: goReplaceFirstChar ('t' :: ':' :: l) ':' '_') = _
  rw [if_neg (by decide)]
  show 'r' :: (if 't' = ':' then '_' :: ':' :: l
        else 't' :: goReplaceFirstChar (':' :: l) ':' '_') = _
  rw [if_neg (by decide)]
  show 'r' :: 't' :: (if ':' = ':' then '_' :: l else ':' :: goReplaceFirstChar l ':' '_') = _
  rw [if_pos rfl]

theorem toList_string_append (a b : String) : (a ++ b).toList = a.toList ++ b.toList :=
  String.data_append a b

/-! ### Claim C4: shape of the sanitizer output -/

/-- C4: for every raw input string, the sanitizer output consists only of the
fixed namespace prefix "rt:", an underscore, and the ASCII alphanumeric
characters of the input in their original order, and contains no space. -/
theorem buildMetricLabel_shape (action : String) :
    (buildMetricLabel action).toList = "rt:_".toList ++ action.toList.filter isGoAlnum
    ∧ ' ' ∉ (buildMetricLabel action).toList := by
  constructor
  · rw [buildMetricLabel_toList]
    rfl
  · rw [buildMetricLabel_toList]
    intro hmem
    simp only [List.mem_cons] at hmem
    rcases hmem with h | h | h | h | h
    · exact absurd h (by decide)
    · exact absurd h (by decide)
    · exact absurd h (by decide)
    · exact absurd h (by decide)
    · exact absurd (List.mem_filter.mp h).2 (by decide)

/-- Witness for C4 at the concrete input "device mobile!". -/
theorem buildMetricLabel_shape_witness :
    (buildMetricLabel "device mobile!").toList
        = "rt:_".toList ++ "device mobile!".toList.filter isGoAlnum
    ∧ ' ' ∉ (buildMetricLabel "device mobile!").toList :=
  buildMetricLabel_shape "device mobile!"

/-! ### Claim C9: sanitizer on the empty string -/

/-- C9 counterexample: on the empty input the sanitizer does not return just
the namespace prefix "rt:"; it returns the prefix joined with the underscore,
"rt:_". -/
theorem buildMetricLabel_empty_counterexample :
    buildMetricLabel "" ≠ "rt:" ∧ buildMetricLabel "" = "rt:" ++ "_" := by
  decide

/-- C9 amended: the sanitizer is a pure total function of the embedding, and
on the empty input its output is the namespace prefix "rt:" joined with the
underscore separator, i.e. "rt:_". -/
theorem buildMetricLabel_empty : buildMetricLabel "" = "rt:" ++ "_" := by
  decide

/-! ### Claim C3: the dimension resolver -/

theorem getLast?_cons_isSome {α : Type} (a : α) (l : List α) :
    ∃ x, (a :: l).getLast? = some x := by
  induction l generalizing a with
  | nil => exact ⟨a, rfl⟩
  | cons b t ih =>
    obtain ⟨x, hx⟩ := ih b
    exact ⟨x, by rw [List.getLast?_cons_cons]; exact hx⟩

theorem foldl_discard {α β : Type} (f : α → β) :
    ∀ (l : List α) (b : β),
      List.foldl (fun _ a => f a) b l = (l.getLast?).elim b f := by
  intro l
  induction l with
  | nil => intro b; rfl
  | cons a t ih =>
    intro b
    cases t with
    | nil => rfl
    | cons a2 t2 =>
      rw [List.foldl_cons, ih, List.getLast?_cons_cons]
      obtain ⟨x, hx⟩ := getLast?_cons_isSome a2 t2
      rw [hx]
      exact rfl

/-- C3 counterexample: with a first entry defining the metric and a later
entry not defining it, getDimensions returns the empty string (the join over
the last entry's missing key), not the value from the last entry that defines
the metric. -/
theorem getDimensions_counterexample :
    getDimensions [[("rt:pageviews", ["rt:country"])], [("rt:other", ["rt:medium"])]]
        "rt:pageviews" ≠ "rt:country"
    ∧ getDimensions [[("rt:pageviews", ["rt:country"])], [("rt:other", ["rt:medium"])]]
        "rt:pageviews" = "" := by
  decide

/-- C3 amended: getDimensions returns the comma-joined dimension list looked
up in the LAST configured entry regardless of whether that entry defines the
metric (a missing key reads as the empty list, hence the empty string); with
no entries it returns the empty string.  Earlier entries are always
overwritten, even by a last entry that does not define the metric. -/
theorem getDimensions_last_entry
    (cfgDimensions : List (List (String × List String))) (metric : String) :
    getDimensions cfgDimensions metric
      = match cfgDimensions.getLast? with
        | none => ""
        | some dimensionMap =>
            String.intercalate "," ((List.lookup metric dimensionMap).getD []) := by
  unfold getDimensions
  rw [foldl_discard]
  cases cfgDimensions.getLast? with
  | none => rfl
  | some dimensionMap => rfl

/-- Witness for C3 at a concrete two-entry configuration. -/
theorem getDimensions_last_entry_witness :
    getDimensions [[("rt:pageviews", ["rt:country", "rt:city"])], []] "rt:pageviews"
      = match ([[("rt:pageviews", ["rt:country", "rt:city"])], []].getLast?) with
        | none => ""
        | some dimensionMap =>
            String.intercalate "," ((List.lookup "rt:pageviews" dimensionMap).getD []) :=
  getDimensions_last_entry [[("rt:pageviews", ["rt:country", "rt:city"])], []] "rt:pageviews"

/-! ### Claim C8: series naming convention -/

/-- C8 counterexample: the vector series built for the sanitized dimension
value "mobile" is not named by the sanitizer output "rt:_mobile"; its name is
"ga_" followed by that output with the first ":" replaced by "_", namely
"ga_rt__mobile". -/
theorem vectorSeriesName_counterexample :
    (vectorGaugeOpts (buildMetricLabel "mobile")).name ≠ buildMetricLabel "mobile"
    ∧ (vectorGaugeOpts (buildMetricLabel "mobile")).name = "ga_rt__mobile"
    ∧ buildMetricLabel "mobile" = "rt:_mobile" := by
  decide

/-- C8 amended: a scalar series for metric m is named "ga_" followed by m
with only the first ":" replaced by "_"; a vector series is named "ga_"
followed by the sanitizer-derived name with its first ":" (the one of the
"rt:" prefix) replaced by "_" — equivalently "ga_rt__" followed by the
alphanumerics of the dimension value; every vector carries exactly the one
variable label "category", and every series carries the constant job label
identifying the exporter. -/
theorem seriesNaming (metric dimVal : String) :
    (scalarGaugeOpts metric).name
        = "ga_" ++ (goReplaceFirstChar metric.toList ':' '_').asString
    ∧ (scalarGaugeOpts metric).constLabels = [("job", "googleAnalytics")]
    ∧ ((vectorGaugeOpts (buildMetricLabel dimVal)).name).toList
        = "ga_rt__".toList ++ dimVal.toList.filter isGoAlnum
    ∧ vectorGaugeLabelNames = ["category"]
    ∧ (vectorGaugeOpts (buildMetricLabel dimVal)).constLabels = [("job", "googleAnalytics")] := by
  refine ⟨rfl, rfl, ?_, rfl, rfl⟩
  show (gaName (buildMetricLabel dimVal)).toList = _
  unfold gaName
  rw [toList_string_append, List.toList_asString, buildMetricLabel_toList,
    goReplaceFirstChar_rt]
  rfl

/-! ### Helper lemmas about the registry -/

theorem lookup_none_countKey {l : List (String × Nat)} {k : String}
    (h : List.lookup k l = none) : countKey l k = 0 := by
  induction l with
  | nil => rfl
  | cons p t ih =>
    obtain ⟨a, b⟩ := p
    cases hka : (k == a) with
    | true => simp [List.lookup, hka] at h
    | false =>
      simp only [List.lookup, hka] at h
      have := ih h
      simpa [countKey, List.filter_cons, hka] using this

theorem registerMetricVec_fresh (m : String) (st : GaState)
    (h : List.lookup (gaName m) st.registry = none) :
    registerMetricVec m st = Except.ok
      { promGauge := st.promGauge
        promGaugeVec := (m, st.nextId) :: st.promGaugeVec
        registry := (gaName m, st.nextId) :: st.registry
        vecValues := st.vecValues
        nextId := st.nextId + 1 } := by
  simp [registerMetricVec, promRegister, vectorGaugeOpts, h]

theorem registerMetricVec_already (m : String) (st : GaState) (e : Nat)
    (h : List.lookup (gaName m) st.registry = some e) :
    registerMetricVec m st = Except.ok
      { promGauge := st.promGauge
        promGaugeVec := (m, e) :: (m, st.nextId) :: st.promGaugeVec
        registry := st.registry
        vecValues := st.vecValues
        nextId := st.nextId + 1 } := by
  simp [registerMetricVec, promRegister, vectorGaugeOpts, h]

theorem registerMetricVec_isOk (m : String) (st : GaState) :
    ∃ st1 k, registerMetricVec m st = Except.ok st1
      ∧ List.lookup m st1.promGaugeVec = some k := by
  cases h : List.lookup (gaName m) st.registry with
  | none =>
    refine ⟨_, st.nextId, registerMetricVec_fresh m st h, ?_⟩
    simp [List.lookup]
  | some e =>
    refine ⟨_, e, registerMetricVec_already m st e h, ?_⟩
    simp [List.lookup]

/-! ### Claim C5: idempotent vector registration -/

/-- C5: registering an already-registered derived name installs the existing
underlying series instead of failing, so two registration calls with the same
fresh derived name create exactly one registry entry for its series name and
both callers observe the same handle. -/
theorem registerMetricVec_idempotent :
    (∀ (st : GaState) (nm : String) (e : Nat),
        List.lookup (gaName nm) st.registry = some e →
        ∃ st1, registerMetricVec nm st = Except.ok st1
          ∧ List.lookup nm st1.promGaugeVec = some e
          ∧ st1.registry = st.registry)
    ∧ (∀ (st : GaState) (nm : String),
        List.lookup (gaName nm) st.registry = none →
        ∃ st1 st2,
          registerMetricVec nm st = Except.ok st1
          ∧ registerMetricVec nm st1 = Except.ok st2
          ∧ countKey st2.registry (gaName nm) = 1
          ∧ List.lookup nm st1.promGaugeVec = some st.nextId
          ∧ List.lookup nm st2.promGaugeVec = some st.nextId) := by
  constructor
  · intro st nm e h
    refine ⟨_, registerMetricVec_already nm st e h, ?_, rfl⟩
    simp [List.lookup]
  · intro st nm h
    have h1 := registerMetricVec_fresh nm st h
    have h2 := registerMetricVec_already nm
      { promGauge := st.promGauge
        promGaugeVec := (nm, st.nextId) :: st.promGaugeVec
        registry := (gaName nm, st.nextId) :: st.registry
        vecValues := st.vecValues
        nextId := st.nextId + 1 } st.nextId (by simp [List.lookup])
    refine ⟨_, _, h1, h2, ?_, by simp [List.lookup], by simp [List.lookup]⟩
    show countKey ((gaName nm, st.nextId) :: st.registry) (gaName nm) = 1
    have h0 : countKey st.registry (gaName nm) = 0 := lookup_none_countKey h
    simp only [countKey, List.filter_cons] at h0 ⊢
    simp [h0]

/-- Witness for C5: two registrations of the fresh derived name "rt:_mobile"
from the example state. -/
theorem registerMetricVec_idempotent_witness :
    List.lookup (gaName "rt:_mobile") exampleSt.registry = none
    ∧ ∃ st1 st2,
        registerMetricVec "rt:_mobile" exampleSt = Except.ok st1
        ∧ registerMetricVec "rt:_mobile" st1 = Except.ok st2
        ∧ countKey st2.registry (gaName "rt:_mobile") = 1
        ∧ List.lookup "rt:_mobile" st1.promGaugeVec = some exampleSt.nextId
        ∧ List.lookup "rt:_mobile" st2.promGaugeVec = some exampleSt.nextId :=
  ⟨rfl, registerMetricVec_idempotent.2 exampleSt "rt:_mobile" rfl⟩

/-! ### Helper lemmas about the worker -/

theorem processRow_skip (st : GaState) (c : String) (rest : List String)
    (h : goContains c "(not set)" = true) :
    processRow st (c :: rest) = Except.ok st := by
  simp [processRow, h]

theorem processRow_update (st : GaState) (c d v : String) (rest : List String)
    (h : goContains c "(not set)" = false) :
    ∃ st1 k, registerMetricVec (buildMetricLabel d) st = Except.ok st1
      ∧ List.lookup (buildMetricLabel d) st1.promGaugeVec = some k
      ∧ processRow st (c :: d :: v :: rest)
          = Except.ok { st1 with
              vecValues := ((k, c), (parseFloat v).getD 0) :: st1.vecValues } := by
  obtain ⟨st1, k, h1, h2⟩ := registerMetricVec_isOk (buildMetricLabel d) st
  refine ⟨st1, k, h1, h2, ?_⟩
  simp [processRow, h, h1, withLabelValuesSet, h2]

theorem processRow_err (st : GaState) (r : List String) (h : rowOK r = false) :
    processRow st r = Except.error GoPanic.indexOutOfRange := by
  cases r with
  | nil => rfl
  | cons c rest =>
    have hc : goContains c "(not set)" = false := by
      cases hg : goContains c "(not set)" with
      | false => rfl
      | true => simp [rowOK, hg] at h
    have hlen : ¬ 2 ≤ rest.length := by
      simp only [rowOK, hc, Bool.false_or, decide_eq_false_iff_not] at h
      exact h
    cases rest with
    | nil => simp [processRow, hc]
    | cons d rest2 =>
      cases rest2 with
      | nil =>
        obtain ⟨st1, k, h1, h2⟩ := registerMetricVec_isOk (buildMetricLabel d) st
        simp [processRow, hc, h1]
      | cons v rest3 =>
        exact absurd (by simp) hlen

theorem processRow_ok (st : GaState) (r : List String) (h : rowOK r = true) :
    ∃ st2, processRow st r = Except.ok st2 := by
  cases r with
  | nil => simp [rowOK] at h
  | cons c rest =>
    cases hg : goContains c "(not set)" with
    | true => exact ⟨st, processRow_skip st c rest hg⟩
    | false =>
      have hlen : 2 ≤ rest.length := by
        simp only [rowOK, hg, Bool.false_or, decide_eq_true_eq] at h
        exact h
      cases rest with
      | nil => simp at hlen
      | cons d rest2 =>
        cases rest2 with
        | nil => simp at hlen
        | cons v rest3 =>
          obtain ⟨st1, k, _, _, h3⟩ := processRow_update st c d v rest3 hg
          exact ⟨_, h3⟩

theorem foldlM_processRow_ok :
    ∀ (rows : List (List String)) (st : GaState), rows.all rowOK = true →
      ∃ st2, List.foldlM processRow st rows = Except.ok st2 := by
  intro rows
  induction rows with
  | nil => exact fun st _ => ⟨st, rfl⟩
  | cons r t ih =>
    intro st hall
    simp only [List.all_cons, Bool.and_eq_true] at hall
    obtain ⟨st2, hst2⟩ := processRow_ok st r hall.1
    obtain ⟨st3, hst3⟩ := ih st2 hall.2
    refine ⟨st3, ?_⟩
    show (processRow st r >>= fun s2 => List.foldlM processRow s2 t) = Except.ok st3
    rw [hst2]
    exact hst3

theorem foldlM_processRow_err :
    ∀ (rows : List (List String)) (st : GaState), rows.all rowOK = false →
      List.foldlM processRow st rows = Except.error GoPanic.indexOutOfRange := by
  intro rows
  induction rows with
  | nil => intro st h; simp at h
  | cons r t ih =>
    intro st hall
    cases h1 : rowOK r with
    | false =>
      show (processRow st r >>= fun s2 => List.foldlM processRow s2 t) = _
      rw [processRow_err st r h1]
      rfl
    | true =>
      have h2 : t.all rowOK = false := by
        simpa [List.all_cons, h1] using hall
      obtain ⟨st2, hst2⟩ := processRow_ok st r h1
      show (processRow st r >>= fun s2 => List.foldlM processRow s2 t) = _
      rw [hst2]
      exact ih st2 h2

theorem collect_single_aux (metric : String) (st : GaState) (row : List String)
    (c : String) (q : ℚ) (h1 : row.get? 0 = some c)
    (h2 : List.lookup metric st.promGauge = some q) :
    collectMetric metric (Except.ok [row]) st
      = Except.ok { st with
          promGauge := (metric, (parseFloat c).getD 0) :: st.promGauge } := by
  rw [List.get?_eq_getElem?] at h1
  simp [collectMetric, h1, h2]

/-! ### Claim C2: single-row results are scalars -/

/-- C2: a fetch result with exactly one row is treated as a scalar: the first
cell of that row is parsed (failure reads as zero) and written to the scalar
gauge of the metric; no vector registration and no vector write happens (the
resulting state changes only in promGauge). -/
theorem collectMetric_single_row_scalar (metric : String) (st : GaState)
    (row : List String) (c : String) (q : ℚ) (h1 : row.get? 0 = some c)
    (h2 : List.lookup metric st.promGauge = some q) :
    collectMetric metric (Except.ok [row]) st
      = Except.ok { st with
          promGauge := (metric, (parseFloat c).getD 0) :: st.promGauge } :=
  collect_single_aux metric st row c q h1 h2

/-- Witness for C2: the one-row result [["42.5"]] sets the scalar value of
the metric to 42.5. -/
theorem collectMetric_single_row_scalar_witness :
    (["42.5"] : List String).get? 0 = some "42.5"
    ∧ List.lookup "rt:activeUsers" exampleSt.promGauge = some 0
    ∧ collectMetric "rt:activeUsers" (Except.ok [["42.5"]]) exampleSt
        = Except.ok { exampleSt with
            promGauge := ("rt:activeUsers", (parseFloat "42.5").getD 0) :: exampleSt.promGauge }
    ∧ (parseFloat "42.5").getD 0 = (42.5 : ℚ) := by
  refine ⟨rfl, rfl,
    collectMetric_single_row_scalar "rt:activeUsers" exampleSt ["42.5"] "42.5" 0 rfl rfl, ?_⟩
  have h : parseFloat "42.5" = some ((1 : ℚ) * (((42 : ℕ) : ℚ) + ((5 : ℕ) : ℚ) / (10 : ℚ) ^ 1)) := rfl
  rw [h]
  norm_num

/-! ### Claim C1: multi/zero-row results drive the vector path -/

/-- C1: a result without exactly one row is processed row by row: zero rows
leave the state untouched; a row whose first cell contains "(not set)" is
skipped with no registration and no write; any other (three-or-more-cell) row
sanitizes the second cell, registers or fetches the vector for the derived
name, and sets its (handle, category) cell to the parsed third cell (parse
failure reads as zero). -/
theorem collectMetric_multi_rows :
    (∀ (metric : String) (st : GaState),
        collectMetric metric (Except.ok []) st = Except.ok st)
    ∧ (∀ (metric : String) (st : GaState) (rows : List (List String)),
        rows.length ≠ 1 →
        collectMetric metric (Except.ok rows) st = List.foldlM processRow st rows)
    ∧ (∀ (st : GaState) (c : String) (rest : List String),
        goContains c "(not set)" = true → processRow st (c :: rest) = Except.ok st)
    ∧ (∀ (st : GaState) (c d v : String) (rest : List String),
        goContains c "(not set)" = false →
        ∃ st1 k, registerMetricVec (buildMetricLabel d) st = Except.ok st1
          ∧ List.lookup (buildMetricLabel d) st1.promGaugeVec = some k
          ∧ processRow st (c :: d :: v :: rest)
              = Except.ok { st1 with
                  vecValues := ((k, c), (parseFloat v).getD 0) :: st1.vecValues }) := by
  refine ⟨fun metric st => rfl, ?_, processRow_skip, processRow_update⟩
  intro metric st rows h
  have hb : (rows.length == 1) = false := by
    simpa using h
  simp [collectMetric, hb]

/-- Witness for C1 at the spec example [["(not set)","x","1"], ["US","mobile","7"]]:
the first row is dropped and the second produces one vector update with
category "US" and value 7. -/
theorem collectMetric_multi_rows_witness :
    ([["(not set)", "x", "1"], ["US", "mobile", "7"]] : List (List String)).length ≠ 1
    ∧ collectMetric "rt:activeUsers"
        (Except.ok [["(not set)", "x", "1"], ["US", "mobile", "7"]]) exampleSt
        = List.foldlM processRow exampleSt [["(not set)", "x", "1"], ["US", "mobile", "7"]]
    ∧ goContains "(not set)" "(not set)" = true
    ∧ processRow exampleSt ["(not set)", "x", "1"] = Except.ok exampleSt
    ∧ goContains "US" "(not set)" = false
    ∧ (∃ st1 k, registerMetricVec (buildMetricLabel "mobile") exampleSt = Except.ok st1
        ∧ List.lookup (buildMetricLabel "mobile") st1.promGaugeVec = some k
        ∧ processRow exampleSt ["US", "mobile", "7"]
            = Except.ok { st1 with
                vecValues := ((k, "US"), (parseFloat "7").getD 0) :: st1.vecValues })
    ∧ (parseFloat "7").getD 0 = (7 : ℚ) := by
  refine ⟨by decide, collectMetric_multi_rows.2.1 "rt:activeUsers" exampleSt _ (by decide),
    by decide, collectMetric_multi_rows.2.2.1 exampleSt "(not set)" ["x", "1"] (by decide),
    by decide,
    collectMetric_multi_rows.2.2.2 exampleSt "US" "mobile" "7" [] (by decide), ?_⟩
  have h : parseFloat "7" = some ((1 : ℚ) * ((7 : ℕ) : ℚ)) := rfl
  rw [h]
  norm_num

/-! ### Claim C7: non-numeric values are written as zero -/

/-- C7: a row whose value cell does not parse writes the value 0 to the
corresponding series — the scalar gauge in the one-row case, the vector cell
otherwise — and the write still happens, with no error surfaced. -/
theorem collectMetric_parse_failure_zero :
    (∀ (metric : String) (st : GaState) (row : List String) (c : String) (q : ℚ),
        row.get? 0 = some c → parseFloat c = none →
        List.lookup metric st.promGauge = some q →
        collectMetric metric (Except.ok [row]) st
          = Except.ok { st with promGauge := (metric, 0) :: st.promGauge })
    ∧ (∀ (st : GaState) (c d v : String) (rest : List String),
        goContains c "(not set)" = false → parseFloat v = none →
        ∃ st1 k, registerMetricVec (buildMetricLabel d) st = Except.ok st1
          ∧ List.lookup (buildMetricLabel d) st1.promGaugeVec = some k
          ∧ processRow st (c :: d :: v :: rest)
              = Except.ok { st1 with vecValues := ((k, c), 0) :: st1.vecValues }) := by
  constructor
  · intro metric st row c q h1 hpf h2
    have h := collect_single_aux metric st row c q h1 h2
    rw [hpf] at h
    exact h
  · intro st c d v rest hg hpf
    obtain ⟨st1, k, h1, h2, h3⟩ := processRow_update st c d v rest hg
    rw [hpf] at h3
    exact ⟨st1, k, h1, h2, h3⟩

/-- Witness for C7: the non-numeric value cell "abc" updates the scalar
gauge to 0 in the one-row case and the ("US") vector cell to 0 in the
multi-row case. -/
theorem collectMetric_parse_failure_zero_witness :
    parseFloat "abc" = none
    ∧ collectMetric "rt:activeUsers" (Except.ok [["abc"]]) exampleSt
        = Except.ok { exampleSt with
            promGauge := ("rt:activeUsers", 0) :: exampleSt.promGauge }
    ∧ goContains "US" "(not set)" = false
    ∧ (∃ st1 k, registerMetricVec (buildMetricLabel "mobile") exampleSt = Except.ok st1
        ∧ List.lookup (buildMetricLabel "mobile") st1.promGaugeVec = some k
        ∧ processRow exampleSt ["US", "mobile", "abc"]
            = Except.ok { st1 with vecValues := ((k, "US"), 0) :: st1.vecValues }) :=
  ⟨by decide,
   collectMetric_parse_failure_zero.1 "rt:activeUsers" exampleSt ["abc"] "abc" 0 rfl
     (by decide) rfl,
   by decide,
   collectMetric_parse_failure_zero.2 exampleSt "US" "mobile" "abc" [] (by decide) (by decide)⟩

/-! ### Claim C6: a failed fetch is fatal, a successful one is not -/

/-- C6: a Worker invocation whose request returns an error terminates with
the fetch panic (no retry, no state update is produced); a successful
request never terminates for that reason. -/
theorem collectMetric_fetch_error_fatal :
    ∀ (metric msg : String) (st : GaState),
      collectMetric metric (Except.error msg) st = Except.error GoPanic.fetchError
      ∧ ∀ (rows : List (List String)),
          collectMetric metric (Except.ok rows) st ≠ Except.error GoPanic.fetchError := by
  intro metric msg st
  refine ⟨rfl, ?_⟩
  intro rows hcontra
  cases hlen : (rows.length == 1) with
  | true =>
    simp only [collectMetric, hlen, if_true] at hcontra
    split at hcontra
    · exact GoPanic.noConfusion (Except.error.inj hcontra)
    · split at hcontra
      · exact GoPanic.noConfusion (Except.error.inj hcontra)
      · exact Except.noConfusion hcontra
  | false =>
    simp only [collectMetric, hlen, Bool.false_eq_true, if_false] at hcontra
    cases hall : rows.all rowOK with
    | true =>
      obtain ⟨st2, h2⟩ := foldlM_processRow_ok rows st hall
      rw [h2] at hcontra
      exact Except.noConfusion hcontra
    | false =>
      rw [foldlM_processRow_err rows st hall] at hcontra
      exact GoPanic.noConfusion (Except.error.inj hcontra)

/-- Witness for C6 at a concrete failed and a concrete successful fetch. -/
theorem collectMetric_fetch_error_fatal_witness :
    collectMetric "rt:activeUsers" (Except.error "transport error") exampleSt
      = Except.error GoPanic.fetchError
    ∧ collectMetric "rt:activeUsers" (Except.ok [["42.5"]]) exampleSt
        ≠ Except.error GoPanic.fetchError :=
  ⟨(collectMetric_fetch_error_fatal "rt:activeUsers" "transport error" exampleSt).1,
   (collectMetric_fetch_error_fatal "rt:activeUsers" "transport error" exampleSt).2 [["42.5"]]⟩

/-! ### Claim C10: the exact precondition for index safety -/

/-- C10: the worker's result interpretation panics with an index-out-of-range
failure exactly when the rows violate the precondition `rowsWF`: in the
single-row case the row must be non-empty, otherwise every row must be
non-empty and every row whose first cell does not contain "(not set)" must
have at least three cells. -/
theorem collectMetric_index_panic_iff :
    ∀ (metric : String) (rows : List (List String)) (st : GaState),
      collectMetric metric (Except.ok rows) st = Except.error GoPanic.indexOutOfRange
        ↔ rowsWF rows = false := by
  intro metric rows st
  cases hlen : (rows.length == 1) with
  | true =>
    have h1 : rows.length = 1 := by simpa using hlen
    cases rows with
    | nil => simp at h1
    | cons r t =>
      cases t with
      | cons r2 t2 => simp [List.length_cons] at h1
      | nil =>
        cases r with
        | nil => simp [collectMetric, rowsWF]
        | cons c rt =>
          cases hl : List.lookup metric st.promGauge with
          | none => simp [collectMetric, rowsWF, hl]
          | some q => simp [collectMetric, rowsWF, hl]
  | false =>
    have hcm : collectMetric metric (Except.ok rows) st = List.foldlM processRow st rows := by
      simp [collectMetric, hlen]
    have hwf : rowsWF rows = rows.all rowOK := by
      simp [rowsWF, hlen]
    rw [hcm, hwf]
    cases hall : rows.all rowOK with
    | true =>
      obtain ⟨st2, h2⟩ := foldlM_processRow_ok rows st hall
      rw [h2]
      simp
    | false =>
      rw [foldlM_processRow_err rows st hall]
      simp

/-- Witness for C10: a two-row result whose second row is fine but whose
first row has a non-"(not set)" first cell and only two cells makes the
worker panic with the index failure. -/
theorem collectMetric_index_panic_iff_witness :
    collectMetric "rt:activeUsers"
        (Except.ok [["US", "mobile"], ["(not set)", "x", "1"]]) exampleSt
      = Except.error GoPanic.indexOutOfRange :=
  (collectMetric_index_panic_iff "rt:activeUsers"
      [["US", "mobile"], ["(not set)", "x", "1"]] exampleSt).mpr (by decide)

example : buildMetricLabel "mobile" = "rt:_mobile" := by decide
example : gaName (buildMetricLabel "mobile") = "ga_rt__mobile" := by decide
example : parseFloat "abc" = none := by decide
example : goContains "x(not set)x" "(not set)" = true := by decide
example : goContains "US" "(not set)" = false := by decide

end Ganalytics
